import Mathlib

/-!
Verification of the news-analyzer clustering core against its specification.

The definitions below are a shallow embedding of the Python sources:
  - `src/analyzer/cluster.py` (`NewsClusterer.fit_predict`,
    `NewsClusterer.optimize_parameters`, `NewsClusterer.get_cluster_info`),
  - `src/analyzer/clustering_quality.py` (`ClusteringQualityMetrics`),
  - `src/narrative/builder.py` (`NarrativeBuilder`).

Numeric values are modelled over `ℚ` (and over `ℝ` where the source computes
an L2 norm). Calls into external libraries (hdbscan, sklearn, numpy's `std`,
`math.log`) are modelled as explicit function parameters ("oracles"): the
surrounding control flow is translated from the source, while the library
call itself is an arbitrary function supplied to the definition.
-/

namespace NewsAnalyzer

/-! ## Cluster statistics (`cluster.py`, `fit_predict` lines 103-105 and
`get_cluster_info` lines 220-242) -/

/-- `unique_labels = set(labels)` (cluster.py line 103), modelled as the list of
distinct values occurring in `labels`. -/
def uniqueLabels (labels : List Int) : List Int :=
  labels.dedup

/-- `n_clusters = len(unique_labels) - (1 if -1 in unique_labels else 0)`
(cluster.py line 104). -/
def nClusters (labels : List Int) : Nat :=
  (uniqueLabels labels).length - (if (-1 : Int) ∈ uniqueLabels labels then 1 else 0)

/-- `n_noise = np.sum(labels == -1)` (cluster.py line 105). -/
def nNoise (labels : List Int) : Nat :=
  labels.countP (fun l => l = -1)

/-- The indices accumulated for one cluster id by `get_cluster_info`
(cluster.py lines 230-242): every index whose label equals `l`, in order. -/
def clusterIndices (labels : List Int) (l : Int) : List Nat :=
  (List.range labels.length).filter (fun i => labels.getD i 0 = l)

/-- The `size` field accumulated for one cluster id by `get_cluster_info`. -/
def clusterSize (labels : List Int) (l : Int) : Nat :=
  (clusterIndices labels l).length

/-- The distinct non-noise labels. -/
def nonNoiseLabels (labels : List Int) : List Int :=
  (uniqueLabels labels).filter (fun l => l ≠ -1)

lemma countP_range_getD (t : List Int) (p : Int → Bool) :
    (List.range t.length).countP (fun i => p (t.getD i 0)) = t.countP p := by
  induction t with
  | nil => simp
  | cons a t ih =>
      rw [List.length_cons, List.range_succ_eq_map, List.countP_cons,
        List.countP_map, List.countP_cons]
      have h0 : ((a :: t).getD 0 0) = a := rfl
      have hsucc :
          (List.range t.length).countP
              ((fun i => p ((a :: t).getD i 0)) ∘ Nat.succ)
            = (List.range t.length).countP (fun i => p (t.getD i 0)) := by
        apply List.countP_congr
        intro i _
        rfl
      rw [hsucc, ih, h0]

lemma clusterSize_eq_count (labels : List Int) (l : Int) :
    clusterSize labels l = labels.count l := by
  unfold clusterSize clusterIndices
  rw [← List.countP_eq_length_filter, countP_range_getD labels (fun x => x = l),
    List.count_eq_countP]
  apply List.countP_congr
  intro x _
  simp [beq_iff_eq]

lemma mem_clusterIndices (labels : List Int) (l : Int) (i : Nat) :
    i ∈ clusterIndices labels l ↔ i < labels.length ∧ labels.getD i 0 = l := by
  unfold clusterIndices
  rw [List.mem_filter, List.mem_range]
  simp

lemma sum_map_filter_split (f : Int → Nat) (p : Int → Bool) (l : List Int) :
    ((l.filter p).map f).sum + ((l.filter (fun x => !(p x))).map f).sum
      = (l.map f).sum := by
  induction l with
  | nil => simp
  | cons a t ih =>
      cases hpa : p a with
      | true =>
          simp [List.filter_cons, hpa]
          omega
      | false =>
          simp [List.filter_cons, hpa]
          omega

lemma filter_eq_singleton_of_nodup (l : List Int) (a : Int)
    (hnd : l.Nodup) (ha : a ∈ l) :
    l.filter (fun x => x = a) = [a] := by
  induction l with
  | nil => cases ha
  | cons b t ih =>
      rcases List.mem_cons.mp ha with h | h
      · have hbt : b ∉ t := (List.nodup_cons.mp hnd).1
        have hta : t.filter (fun x => x = a) = [] := by
          apply List.filter_eq_nil_iff.mpr
          intro x hx
          simp only [decide_eq_true_eq]
          intro hxa
          rw [hxa, h] at hx
          exact hbt hx
        rw [List.filter_cons, if_pos (by simp [h]), hta, h]
      · have hnd' : t.Nodup := (List.nodup_cons.mp hnd).2
        have hba : b ≠ a := by
          intro hba
          exact (List.nodup_cons.mp hnd).1 (hba ▸ h)
        rw [List.filter_cons, if_neg (by simp [hba])]
        exact ih hnd' h

lemma noise_plus_cluster_sizes (labels : List Int) :
    nNoise labels + ((nonNoiseLabels labels).map (clusterSize labels)).sum
      = labels.length := by
  have base := List.sum_map_count_dedup_eq_length labels
  have split := sum_map_filter_split (fun x => labels.count x)
    (fun l => l = -1) labels.dedup
  have hfilter_not :
      labels.dedup.filter (fun x => !(decide (x = -1)))
        = labels.dedup.filter (fun l => l ≠ -1) := by
    apply List.filter_congr
    intro x _
    simp
  have hsizes :
      ((labels.dedup.filter (fun l => l ≠ -1)).map (clusterSize labels)).sum
        = ((labels.dedup.filter (fun l => l ≠ -1)).map
            (fun x => labels.count x)).sum := by
    congr 1
    apply List.map_congr_left
    intro x _
    exact clusterSize_eq_count labels x
  by_cases hmem : (-1 : Int) ∈ labels
  · have hsingle : labels.dedup.filter (fun x => x = -1) = [-1] :=
      filter_eq_singleton_of_nodup _ _ (List.nodup_dedup labels)
        (List.mem_dedup.mpr hmem)
    have hnoise : nNoise labels = labels.count (-1) := by
      unfold nNoise
      rw [List.count_eq_countP]
      apply List.countP_congr
      intro x _
      simp [beq_iff_eq]
    unfold nonNoiseLabels uniqueLabels
    rw [hsizes, hnoise]
    rw [hsingle, hfilter_not] at split
    simp only [List.map_cons, List.map_nil, List.sum_cons, List.sum_nil,
      add_zero] at split
    omega
  · have hempty : labels.dedup.filter (fun x => x = -1) = [] := by
      apply List.filter_eq_nil_iff.mpr
      intro x hx
      simp only [decide_eq_true_eq]
      intro hxa
      exact hmem (hxa ▸ List.mem_dedup.mp hx)
    have hnoise : nNoise labels = 0 := by
      apply List.countP_eq_zero.mpr
      intro a ha
      simp only [decide_eq_true_eq]
      intro hae
      exact hmem (hae ▸ ha)
    unfold nonNoiseLabels uniqueLabels
    rw [hsizes, hnoise]
    rw [hempty, hfilter_not] at split
    simp only [List.map_nil, List.sum_nil, zero_add] at split
    omega

lemma nClusters_eq_length_nonNoise (labels : List Int) :
    nClusters labels = (nonNoiseLabels labels).length := by
  unfold nClusters nonNoiseLabels
  have hsplit := sum_map_filter_split (fun _ => 1)
    (fun l => l = -1) (uniqueLabels labels)
  have h1 : ∀ (l : List Int), (l.map (fun _ => 1)).sum = l.length := by
    intro l
    induction l with
    | nil => simp
    | cons a t ih => simp [ih]; omega
  have hfilter_not :
      (uniqueLabels labels).filter (fun x => !(decide (x = -1)))
        = (uniqueLabels labels).filter (fun l => l ≠ -1) := by
    apply List.filter_congr
    intro x _
    simp
  rw [hfilter_not, h1, h1, h1] at hsplit
  by_cases hmem : (-1 : Int) ∈ uniqueLabels labels
  · rw [if_pos hmem]
    have hsingle : (uniqueLabels labels).filter (fun x => x = -1) = [-1] :=
      filter_eq_singleton_of_nodup _ _ (List.nodup_dedup labels) hmem
    rw [hsingle] at hsplit
    simp only [List.length_cons, List.length_nil] at hsplit
    omega
  · rw [if_neg hmem]
    have hempty : (uniqueLabels labels).filter (fun x => x = -1) = [] := by
      apply List.filter_eq_nil_iff.mpr
      intro x hx
      simp only [decide_eq_true_eq]
      intro hxe
      exact hmem (hxe ▸ hx)
    rw [hempty] at hsplit
    simp only [List.length_nil] at hsplit
    omega

/-- Claim C1: the statistics returned by `fit_predict` together with the
per-cluster groups built by `get_cluster_info` partition the `N` document
indices: the sum of the per-label cluster sizes plus `n_noise` equals `N`;
`n_clusters` counts the distinct non-noise labels; `n_noise` counts the
indices labeled `-1`; and every index either is noise (label `-1`, belonging
to no cluster group) or carries a unique non-noise label and belongs to
exactly the cluster group of that label. -/
theorem C1_cluster_stats_partition (labels : List Int) :
    nNoise labels + ((nonNoiseLabels labels).map (clusterSize labels)).sum
        = labels.length
    ∧ nClusters labels = (nonNoiseLabels labels).length
    ∧ nNoise labels
        = ((List.range labels.length).filter
            (fun i => labels.getD i 0 = -1)).length
    ∧ ∀ (i : Fin labels.length),
        (labels.get i = -1 ∧ ∀ l : Int, (i : Nat) ∈ clusterIndices labels l → l = -1)
        ∨ (labels.get i ≠ -1 ∧ labels.get i ∈ nonNoiseLabels labels
            ∧ ∀ l : Int, ((i : Nat) ∈ clusterIndices labels l ↔ l = labels.get i)) := by
  refine ⟨noise_plus_cluster_sizes labels, nClusters_eq_length_nonNoise labels, ?_, ?_⟩
  · rw [← List.countP_eq_length_filter, countP_range_getD labels (fun x => x = -1)]
    rfl
  · intro i
    have hget : labels.getD (i : Nat) 0 = labels.get i := by
      rw [List.getD_eq_getElem labels 0 i.isLt]
      simp [List.get_eq_getElem]
    by_cases h : labels.get i = -1
    · left
      refine ⟨h, ?_⟩
      intro l hl
      rw [mem_clusterIndices] at hl
      rw [hget, h] at hl
      exact hl.2.symm
    · right
      refine ⟨h, ?_, ?_⟩
      · unfold nonNoiseLabels uniqueLabels
        rw [List.mem_filter]
        constructor
        · apply List.mem_dedup.mpr
          rw [List.get_eq_getElem]
          exact List.getElem_mem i.isLt
        · simpa using h
      · intro l
        rw [mem_clusterIndices, hget]
        constructor
        · intro hl
          exact hl.2.symm
        · intro hl
          exact ⟨i.isLt, hl.symm⟩

/-- Claim C1, witness: the partition equation at a concrete label list. -/
theorem C1_cluster_stats_partition_witness :
    nNoise [0, -1, 0] + ((nonNoiseLabels [0, -1, 0]).map
        (clusterSize [0, -1, 0])).sum
      = ([0, -1, 0] : List Int).length :=
  (C1_cluster_stats_partition [0, -1, 0]).1

/-! ## Quality metrics (`clustering_quality.py`) -/

/-- The distinct elements of a list in first-occurrence order, as iterated by
a Python `Counter` / `dict` (insertion order). -/
def firstOccur {α : Type} [DecidableEq α] (l : List α) : List α :=
  l.foldl (fun acc x => if x ∈ acc then acc else acc ++ [x]) []

/-- The list of cluster sizes `list(cluster_sizes.values())` after deleting
the noise key `-1` from `Counter(labels)` (clustering_quality.py lines 94-97,
110, 171-175, 199-201), in `Counter` insertion order. -/
def clusterSizesList (labels : List Int) : List Nat :=
  ((firstOccur labels).filter (fun l => l ≠ -1)).map (fun l => labels.count l)

/-- Outcome of the three sklearn scoring calls inside
`_calculate_external_metrics` (clustering_quality.py lines 135-160): a `none`
field models a call that raised (the exception is caught locally and the
metric is omitted). -/
structure ExternalOracle where
  silhouette : Option ℚ
  calinski : Option ℚ
  daviesBouldin : Option ℚ

/-- Injected numeric library functions: `np.std` over a list of values, and
`math.log` (applied to `total_samples + 1`). -/
structure NumLib where
  std : List ℚ → ℚ
  log : ℚ → ℚ

/-- The dict returned by `_calculate_cluster_stats`
(clustering_quality.py lines 92-121). The source's `dominant_cluster_ratio`
key is the `dominantClusterShare` field. -/
structure ClusterStats where
  avg_cluster_size : ℚ
  max_cluster_size : ℚ
  min_cluster_size : ℚ
  cluster_size_std : ℚ
  cluster_size_variance : ℚ
  dominantClusterShare : ℚ

/-- Head-seeded maximum of a list (Python `max(sizes)` on a non-empty list). -/
def listMaxQ : List ℚ → ℚ
  | [] => 0
  | h :: t => t.foldl max h

/-- Head-seeded minimum of a list (Python `min(sizes)` on a non-empty list). -/
def listMinQ : List ℚ → ℚ
  | [] => 0
  | h :: t => t.foldl min h

/-- `np.mean` over a list of rationals. -/
def listMeanQ (l : List ℚ) : ℚ :=
  l.sum / l.length

/-- `np.var` over a list of rationals (mean of squared deviations). -/
def listVarQ (l : List ℚ) : ℚ :=
  listMeanQ (l.map (fun x => (x - listMeanQ l) ^ 2))

/-- `_calculate_cluster_stats` (clustering_quality.py lines 92-121). -/
def calculateClusterStats (nl : NumLib) (labels : List Int) : ClusterStats :=
  let sizes : List ℚ := (clusterSizesList labels).map (fun n => (n : ℚ))
  if sizes = [] then
    ⟨0, 0, 0, 0, 0, 0⟩
  else
    let total := sizes.sum
    { avg_cluster_size := listMeanQ sizes
      max_cluster_size := listMaxQ sizes
      min_cluster_size := listMinQ sizes
      cluster_size_std := nl.std sizes
      cluster_size_variance := listVarQ sizes
      dominantClusterShare := if total > 0 then listMaxQ sizes / total else 0 }

/-- The dict returned by `_calculate_internal_metrics`
(clustering_quality.py lines 164-195). -/
structure InternalMetrics where
  balance_score : ℚ
  coverage_score : ℚ
  compactness_score : ℚ
  efficiency_score : ℚ

/-- `_calculate_internal_metrics` (clustering_quality.py lines 164-195). -/
def calculateInternalMetrics (nl : NumLib) (labels : List Int)
    (n_clusters n_noise : Int) : InternalMetrics :=
  let total_samples : ℚ := labels.length
  let balance :=
    if n_clusters > 0 then
      let expected_size : ℚ := (total_samples - (n_noise : ℚ)) / (n_clusters : ℚ)
      let sizes : List ℚ := (clusterSizesList labels).map (fun n => (n : ℚ))
      let b : ℚ := if expected_size > 0 then 1 - nl.std sizes / expected_size else 0
      max 0 (min 1 b)
    else 0
  let coverage :=
    if total_samples > 0 then (total_samples - (n_noise : ℚ)) / total_samples else 0
  let compactness :=
    if total_samples > 0 then
      min 1 (max (1/10) (1 - (n_clusters : ℚ) / nl.log (total_samples + 1)))
    else 0
  ⟨balance, coverage, compactness, (balance + coverage + compactness) / 3⟩

/-- The dict returned by `_assess_cluster_stability`
(clustering_quality.py lines 197-231). -/
structure StabilityMetrics where
  single_point_clusters : Nat
  large_clusters : Nat
  small_clusters : Nat
  medium_clusters : Nat
  stability_score : ℚ

/-- `_assess_cluster_stability` (clustering_quality.py lines 197-231): the
`if / elif` chain classifying every non-noise cluster size. -/
def assessClusterStability (labels : List Int) (n_clusters : Int) : StabilityMetrics :=
  let sizes := clusterSizesList labels
  let total_clustered : ℚ := (sizes.map (fun n => (n : ℚ))).sum
  let isLarge := fun (s : Nat) => (s : ℚ) > total_clustered * (3/10)
  let single := sizes.countP (fun s => s = 1)
  let large := sizes.countP (fun s => s ≠ 1 ∧ isLarge s)
  let small := sizes.countP (fun s => s ≠ 1 ∧ ¬ isLarge s ∧ s < 5)
  let medium := sizes.countP (fun s => s ≠ 1 ∧ ¬ isLarge s ∧ ¬ s < 5)
  let stability :=
    if n_clusters > 0 then
      max 0 (1 - ((single : ℚ) + (large : ℚ)) / (n_clusters : ℚ))
    else 0
  ⟨single, large, small, medium, stability⟩

/-- The metric values consulted by `_calculate_overall_quality_score`
(clustering_quality.py lines 233-268): a field is `none` when the
corresponding key is absent from the metrics dict. -/
structure QMetrics where
  silhouette_score : Option ℚ
  calinski_harabasz_score : Option ℚ
  coverage_score : Option ℚ
  balance_score : Option ℚ
  stability_score : Option ℚ
  efficiency_score : Option ℚ
  davies_bouldin_score : Option ℚ

/-- The `weights` dict (clustering_quality.py lines 235-242) in its Python
iteration (insertion) order. -/
def qualityWeights : List (String × ℚ) :=
  [("silhouette_score", 25/100),
   ("calinski_harabasz_score", 15/100),
   ("coverage_score", 20/100),
   ("balance_score", 15/100),
   ("stability_score", 15/100),
   ("efficiency_score", 10/100)]

/-- `metrics.get(name)` restricted to the keys the overall-score loop can
consult. -/
def QMetrics.lookup (m : QMetrics) (name : String) : Option ℚ :=
  if name = "silhouette_score" then m.silhouette_score
  else if name = "calinski_harabasz_score" then m.calinski_harabasz_score
  else if name = "coverage_score" then m.coverage_score
  else if name = "balance_score" then m.balance_score
  else if name = "stability_score" then m.stability_score
  else if name = "efficiency_score" then m.efficiency_score
  else if name = "davies_bouldin_score" then m.davies_bouldin_score
  else none

/-- Normalization of one metric value into `[0,1]`
(clustering_quality.py lines 251-263), including the (unreachable, unweighted)
`davies_bouldin_score` branch of the source. -/
def normalizeMetric (name : String) (value : ℚ) : ℚ :=
  if name = "silhouette_score" then (value + 1) / 2
  else if name = "davies_bouldin_score" then max 0 (1 - value / 2)
  else if name = "calinski_harabasz_score" then min 1 (value / 1000)
  else value

/-- `_calculate_overall_quality_score` (clustering_quality.py lines 233-268):
fold over the weights dict accumulating `score += normalized * weight` and
`total_weight += weight` for the metrics present, then divide
(`0.0` if `total_weight` is not positive). -/
def calculateOverallQualityScore (m : QMetrics) : ℚ :=
  let step := fun (acc : ℚ × ℚ) (mw : String × ℚ) =>
    match m.lookup mw.1 with
    | some value => (acc.1 + normalizeMetric mw.1 value * mw.2, acc.2 + mw.2)
    | none => acc
  let r := qualityWeights.foldl step (0, 0)
  if r.2 > 0 then r.1 / r.2 else 0

/-- The weight table as the specification states it: separation 0.25,
dispersion-ratio 0.15, coverage 0.20, balance 0.15, stability 0.15,
efficiency 0.10. -/
def specWeights : List (String × ℚ) :=
  [("silhouette_score", 1/4),
   ("calinski_harabasz_score", 3/20),
   ("coverage_score", 1/5),
   ("balance_score", 3/20),
   ("stability_score", 3/20),
   ("efficiency_score", 1/10)]

/-- The normalization as the specification states it: the separation
(silhouette) score is remapped from `[-1,1]` to `[0,1]` via `(v+1)/2`, the
dispersion-ratio (Calinski-Harabasz) metric via `min(1, v/1000)`, and the
other weighted metrics are used as-is. -/
def specNormalize (name : String) (value : ℚ) : ℚ :=
  if name = "silhouette_score" then (value + 1) / 2
  else if name = "calinski_harabasz_score" then min 1 (value / 1000)
  else value

/-- The overall score as the specification states it: the weighted sum of the
normalized values of the metrics actually present, divided by the sum of
their weights; a metric absent from the mapping is excluded from both the
numerator and the denominator; if no weighted metric is present the score
is 0. -/
def specOverallScore (m : QMetrics) : ℚ :=
  let present := specWeights.filter (fun mw => (m.lookup mw.1).isSome)
  if present = [] then 0
  else
    (present.map (fun mw => mw.2 * specNormalize mw.1 ((m.lookup mw.1).getD 0))).sum
      / (present.map (fun mw => mw.2)).sum

/-- Claim C3: for every metrics mapping, the overall quality score computed
by `_calculate_overall_quality_score` equals the specification's formula —
weighted sum of normalized present metrics over the sum of the weights
present, with the stated weights and remaps, absent metrics excluded from
both numerator and denominator, and 0 when no weighted metric is present. -/
lemma lookup_sil (m : QMetrics) :
    m.lookup "silhouette_score" = m.silhouette_score := by
  simp [QMetrics.lookup]

lemma lookup_cal (m : QMetrics) :
    m.lookup "calinski_harabasz_score" = m.calinski_harabasz_score := by
  simp [QMetrics.lookup]

lemma lookup_cov (m : QMetrics) :
    m.lookup "coverage_score" = m.coverage_score := by
  simp [QMetrics.lookup]

lemma lookup_bal (m : QMetrics) :
    m.lookup "balance_score" = m.balance_score := by
  simp [QMetrics.lookup]

lemma lookup_stab (m : QMetrics) :
    m.lookup "stability_score" = m.stability_score := by
  simp [QMetrics.lookup]

lemma lookup_eff (m : QMetrics) :
    m.lookup "efficiency_score" = m.efficiency_score := by
  simp [QMetrics.lookup]

lemma normalize_sil (v : ℚ) : normalizeMetric "silhouette_score" v = (v + 1) / 2 := by
  simp [normalizeMetric]

lemma normalize_cal (v : ℚ) :
    normalizeMetric "calinski_harabasz_score" v = min 1 (v / 1000) := by
  simp [normalizeMetric]

lemma normalize_cov (v : ℚ) : normalizeMetric "coverage_score" v = v := by
  simp [normalizeMetric]

lemma normalize_bal (v : ℚ) : normalizeMetric "balance_score" v = v := by
  simp [normalizeMetric]

lemma normalize_stab (v : ℚ) : normalizeMetric "stability_score" v = v := by
  simp [normalizeMetric]

lemma normalize_eff (v : ℚ) : normalizeMetric "efficiency_score" v = v := by
  simp [normalizeMetric]

lemma specNormalize_sil (v : ℚ) : specNormalize "silhouette_score" v = (v + 1) / 2 := by
  simp [specNormalize]

lemma specNormalize_cal (v : ℚ) :
    specNormalize "calinski_harabasz_score" v = min 1 (v / 1000) := by
  simp [specNormalize]

lemma specNormalize_cov (v : ℚ) : specNormalize "coverage_score" v = v := by
  simp [specNormalize]

lemma specNormalize_bal (v : ℚ) : specNormalize "balance_score" v = v := by
  simp [specNormalize]

lemma specNormalize_stab (v : ℚ) : specNormalize "stability_score" v = v := by
  simp [specNormalize]

lemma specNormalize_eff (v : ℚ) : specNormalize "efficiency_score" v = v := by
  simp [specNormalize]

set_option maxHeartbeats 1600000 in
/-- Claim C3: for every metrics mapping, the overall quality score computed
by `_calculate_overall_quality_score` equals the specification's formula —
weighted sum of normalized present metrics over the sum of the weights
present, with the stated weights and remaps, absent metrics excluded from
both numerator and denominator, and 0 when no weighted metric is present. -/
theorem C3_overall_score_weighted_normalized (m : QMetrics) :
    calculateOverallQualityScore m = specOverallScore m := by
  obtain ⟨s, c, cov, b, st, e, d⟩ := m
  unfold calculateOverallQualityScore specOverallScore
  rcases s with _ | s <;> rcases c with _ | c <;> rcases cov with _ | cov <;>
    rcases b with _ | b <;> rcases st with _ | st <;> rcases e with _ | e <;>
    (try simp [qualityWeights, specWeights, List.foldl_cons, List.foldl_nil,
      List.filter_cons, List.filter_nil, List.map_cons, List.map_nil,
      List.sum_cons, List.sum_nil, lookup_sil, lookup_cal, lookup_cov,
      lookup_bal, lookup_stab, lookup_eff, normalize_sil, normalize_cal,
      normalize_cov, normalize_bal, normalize_stab, normalize_eff,
      specNormalize_sil, specNormalize_cal, specNormalize_cov, specNormalize_bal,
      specNormalize_stab, specNormalize_eff]
     try norm_num
     try ring_nf)

/-- `_calculate_external_metrics` (clustering_quality.py lines 123-162),
with the three sklearn scoring calls supplied by `ext`. Returns
(silhouette, calinski_harabasz, davies_bouldin), `none` meaning the key is
absent. A valid index beyond the vector table models the `X[valid_indices]`
lookup raising (that exception is caught by the caller's inner `try`, line
58, leaving all three keys absent). -/
def calculateExternalMetrics (ext : ExternalOracle) (vectors : List (List ℚ))
    (labels : List Int) : Option ℚ × Option ℚ × Option ℚ :=
  let validIdx := (List.range labels.length).filter (fun i => labels.getD i 0 ≠ -1)
  if validIdx.length < 2 then (none, none, none)
  else if validIdx.any (fun i => vectors.length ≤ i) then (none, none, none)
  else
    let labelsFiltered := labels.filter (fun l => l ≠ -1)
    let distinctOK := labelsFiltered.dedup.length > 1
    (if distinctOK then ext.silhouette else none,
     if distinctOK then ext.calinski else none,
     if distinctOK then ext.daviesBouldin else none)

/-- `_get_quality_grade` (clustering_quality.py lines 270-281). -/
def getQualityGrade (score : ℚ) : String :=
  if score ≥ 8/10 then "EXCELLENT"
  else if score ≥ 7/10 then "GOOD"
  else if score ≥ 6/10 then "FAIR"
  else if score ≥ 4/10 then "POOR"
  else "BAD"

/-- The dict returned by `evaluate_clustering` (clustering_quality.py lines
21-90), as a record with optional fields for keys that may be absent. The
error dict (lines 84-90) carries `error`, `quality_score` and grade
`"ERROR"`; the regular dict carries everything else and
`overall_quality_score`. -/
structure QualityReport where
  error : Option String
  n_clusters : Int
  n_noise : Int
  noiseShare : ℚ
  total_samples : Nat
  clustered_samples : ℚ
  clusteringShare : ℚ
  stats : ClusterStats
  silhouette_score : Option ℚ
  calinski_harabasz_score : Option ℚ
  davies_bouldin_score : Option ℚ
  internals : InternalMetrics
  stability : StabilityMetrics
  overall_quality_score : Option ℚ
  quality_score : Option ℚ
  quality_grade : String

/-- Whether all rows of the vector table have equal width (`np.array`
succeeds on the nested list without raising). -/
def allSameWidth (vectors : List (List ℚ)) : Bool :=
  vectors.all (fun v => v.length = (vectors.headD []).length)

/-- The error dict built by the outer `except` of `evaluate_clustering`
(clustering_quality.py lines 82-90): `quality_grade = "ERROR"`,
`quality_score = 0.0`, the exception message recorded under `error`, and no
`overall_quality_score` key. -/
def errorReport (e : String) (n_clusters n_noise : Int) : QualityReport :=
  { error := some e
    n_clusters := n_clusters
    n_noise := n_noise
    noiseShare := 0
    total_samples := 0
    clustered_samples := 0
    clusteringShare := 0
    stats := ⟨0, 0, 0, 0, 0, 0⟩
    silhouette_score := none
    calinski_harabasz_score := none
    davies_bouldin_score := none
    internals := ⟨0, 0, 0, 0⟩
    stability := ⟨0, 0, 0, 0, 0⟩
    overall_quality_score := none
    quality_score := some 0
    quality_grade := "ERROR" }

/-- `evaluate_clustering` (clustering_quality.py lines 21-90). The whole body
runs inside `try/except Exception`; `exc` models an unrecoverable exception
raised by a library call not otherwise modelled (`some e` = an exception with
message `e` occurred), and a ragged `vectors` table models `np.array(vectors)`
itself raising (line 38), which the same `except` turns into the error dict.
Totality of this definition models "evaluate never raises". -/
def evaluateClustering (nl : NumLib) (ext : ExternalOracle) (exc : Option String)
    (vectors : List (List ℚ)) (labels : List Int)
    (n_clusters n_noise : Int) : QualityReport :=
  match exc with
  | some e => errorReport e n_clusters n_noise
  | none =>
      if ¬ allSameWidth vectors then
        errorReport "setting an array element with a sequence" n_clusters n_noise
      else
        let n : Nat := labels.length
        let noiseShare : ℚ := if labels ≠ [] then (n_noise : ℚ) / (n : ℚ) else 0
        let clustered : ℚ := (n : ℚ) - (n_noise : ℚ)
        let clusteringShare : ℚ := if labels ≠ [] then clustered / (n : ℚ) else 0
        let stats := calculateClusterStats nl labels
        let extGate : Bool :=
          vectors.length > 10 ∧ n_clusters > 1 ∧ n_clusters < (vectors.length : Int) - n_noise
        let extResult :=
          if extGate then calculateExternalMetrics ext vectors labels
          else (none, none, none)
        let internals := calculateInternalMetrics nl labels n_clusters n_noise
        let stability := assessClusterStability labels n_clusters
        let m : QMetrics :=
          { silhouette_score := extResult.1
            calinski_harabasz_score := extResult.2.1
            coverage_score := some internals.coverage_score
            balance_score := some internals.balance_score
            stability_score := some stability.stability_score
            efficiency_score := some internals.efficiency_score
            davies_bouldin_score := extResult.2.2 }
        let score := calculateOverallQualityScore m
        { error := none
          n_clusters := n_clusters
          n_noise := n_noise
          noiseShare := noiseShare
          total_samples := n
          clustered_samples := clustered
          clusteringShare := clusteringShare
          stats := stats
          silhouette_score := extResult.1
          calinski_harabasz_score := extResult.2.1
          davies_bouldin_score := extResult.2.2
          internals := internals
          stability := stability
          overall_quality_score := some score
          quality_score := none
          quality_grade := getQualityGrade score }

lemma getQualityGrade_mem (s : ℚ) :
    getQualityGrade s ∈ ["EXCELLENT", "GOOD", "FAIR", "POOR", "BAD"] := by
  unfold getQualityGrade
  split_ifs <;> simp

/-- Claim C2: `evaluate_clustering` is a total function of its inputs (it
never raises, whatever the vectors, labels, counts, library outcomes or
exception behavior), its `quality_grade` always lies in
{EXCELLENT, GOOD, FAIR, POOR, BAD, ERROR}, and whenever an unrecoverable
exception occurs during evaluation the returned report carries grade
`"ERROR"`, score `0.0` and the exception message, instead of propagating. -/
theorem C2_evaluate_total_and_graded (nl : NumLib) (ext : ExternalOracle)
    (exc : Option String) (vectors : List (List ℚ)) (labels : List Int)
    (n_clusters n_noise : Int) :
    (evaluateClustering nl ext exc vectors labels n_clusters n_noise).quality_grade
        ∈ ["EXCELLENT", "GOOD", "FAIR", "POOR", "BAD", "ERROR"]
    ∧ ∀ e : String,
        (evaluateClustering nl ext (some e) vectors labels n_clusters n_noise).quality_grade
            = "ERROR"
        ∧ (evaluateClustering nl ext (some e) vectors labels n_clusters n_noise).quality_score
            = some 0
        ∧ (evaluateClustering nl ext (some e) vectors labels n_clusters n_noise).error
            = some e := by
  constructor
  · match exc with
    | some e => simp [evaluateClustering, errorReport]
    | none =>
        by_cases h : allSameWidth vectors
        · have := getQualityGrade_mem (calculateOverallQualityScore
            { silhouette_score :=
                (if (vectors.length > 10 ∧ n_clusters > 1
                      ∧ n_clusters < (vectors.length : Int) - n_noise : Bool)
                  then calculateExternalMetrics ext vectors labels
                  else (none, none, none)).1
              calinski_harabasz_score :=
                (if (vectors.length > 10 ∧ n_clusters > 1
                      ∧ n_clusters < (vectors.length : Int) - n_noise : Bool)
                  then calculateExternalMetrics ext vectors labels
                  else (none, none, none)).2.1
              coverage_score := some (calculateInternalMetrics nl labels
                n_clusters n_noise).coverage_score
              balance_score := some (calculateInternalMetrics nl labels
                n_clusters n_noise).balance_score
              stability_score := some (assessClusterStability labels
                n_clusters).stability_score
              efficiency_score := some (calculateInternalMetrics nl labels
                n_clusters n_noise).efficiency_score
              davies_bouldin_score :=
                (if (vectors.length > 10 ∧ n_clusters > 1
                      ∧ n_clusters < (vectors.length : Int) - n_noise : Bool)
                  then calculateExternalMetrics ext vectors labels
                  else (none, none, none)).2.2 })
          simp only [evaluateClustering, h, not_true, if_neg, if_false]
          simp only [List.mem_cons, List.mem_singleton] at this ⊢
          tauto
        · simp [evaluateClustering, h, errorReport]
  · intro e
    refine ⟨?_, ?_, ?_⟩ <;> simp [evaluateClustering, errorReport]

/-! ## Narrative building (`builder.py`) -/

/-- Whitespace as recognized by Python's argumentless `str.split`. -/
def isSpaceChar (c : Char) : Bool :=
  c = ' ' ∨ c = '\t' ∨ c = '\n' ∨ c = '\r'

/-- Helper for `pySplit`: scan the characters, accumulating the current word
reversed, emitting a word at each whitespace run and at the end. -/
def splitWS : List Char → List Char → List String
  | [], cur => if cur = [] then [] else [String.mk cur.reverse]
  | c :: rest, cur =>
      if isSpaceChar c then
        if cur = [] then splitWS rest []
        else String.mk cur.reverse :: splitWS rest []
      else splitWS rest (c :: cur)

/-- Python `text.split()` (no argument): split on whitespace runs, dropping
empty chunks. -/
def pySplit (s : String) : List String :=
  splitWS s.data []

/-- Python `text.lower()`, modelled on the ASCII range (the Russian stopword
strings below are already lowercase, so they are unaffected). -/
def pyLower (s : String) : String :=
  String.mk (s.data.map Char.toLower)

/-- The `extended_stopwords` set of the fallback path
(builder.py lines 161-168). -/
def extendedStopwords : List String :=
  ["в", "из", "на", "для", "по", "а", "от", "с", "у", "о", "к", "до",
   "после", "перед", "между", "во", "над", "под", "при", "без", "за", "об",
   "из-за",
   "и", "или", "если", "то", "либо", "нибудь", "кое", "как", "что", "это",
   "его", "её", "их",
   "не", "да", "ну", "ой", "ах", "ох", "ух", "во", "со", "ко", "го", "то",
   "же", "бы", "ли", "ни"]

/-- `Counter(all_words).most_common(k)` keys: the distinct words ordered by
descending count, ties kept in first-insertion order (`most_common` sorts
stably over the counter's insertion order). -/
def mostCommon (ws : List String) (k : Nat) : List String :=
  (((firstOccur ws).mergeSort (fun a b => ws.count b ≤ ws.count a)).take k)

/-- The frequency fallback of `_build_single_narrative`
(builder.py lines 156-176): lowercase and split each text, drop stopwords
and words shorter than 3 characters, count, and keep the `top_keywords` most
common words. -/
def fallbackKeywords (texts : List String) (top_keywords : Nat) : List String :=
  let all_words := texts.flatMap (fun t =>
    (pySplit (pyLower t)).filter
      (fun w => 3 ≤ w.length ∧ w ∉ extendedStopwords))
  mostCommon all_words top_keywords

/-- The keyword-extraction step of `_build_single_narrative`
(builder.py lines 112-176). `tfidfRanked` models the outcome of the local
`TfidfVectorizer` fit and the TF-IDF + frequency-bonus ranking truncated to
`top_keywords` (lines 114-146): `some kws` is the ranked keyword list, `none`
a raising library call. The in-source 3..50 length filter, the raise on an
empty filtered list (lines 149-154), and the fallback (lines 156-176) are
translated directly. -/
def extractKeywords (tfidfRanked : Option (List String)) (texts : List String)
    (top_keywords : Nat) : List String :=
  match tfidfRanked with
  | some kws =>
      let filtered := kws.filter (fun kw => 3 ≤ kw.length ∧ kw.length ≤ 50)
      if filtered = [] then fallbackKeywords texts top_keywords else filtered
  | none => fallbackKeywords texts top_keywords

/-- One source item (`NewsItem` fields used by the builder). -/
structure NewsItem where
  title : String
  link : String
  source_name : Option String

/-- One produced narrative (builder.py lines 187-193). -/
structure Narrative where
  cluster_id : Int
  size : Nat
  keywords : List String
  news_examples : List (String × String × String)
  news_count : Nat

/-- The `clusters` dict built in `build_narratives` (builder.py lines 54-61):
item indices grouped by non-noise label, keys in first-appearance order,
each group's indices in input order. -/
def groupClusters (labels : List Int) : List (Int × List Nat) :=
  ((firstOccur labels).filter (fun l => l ≠ -1)).map
    (fun l => (l, clusterIndices labels l))

/-- `_build_single_narrative` (builder.py lines 84-193) for one cluster. -/
def buildSingleNarrative (tfidf : List String → Option (List String))
    (news_items : List NewsItem) (processed_texts : Option (List String))
    (top_keywords top_titles : Nat) (cluster_id : Int) (indices : List Nat) :
    Narrative :=
  let cluster_news := indices.map (fun i => news_items.getD i ⟨"", "", none⟩)
  let texts :=
    match processed_texts with
    | some ps => indices.map (fun i => ps.getD i "")
    | none => cluster_news.map (fun item => item.title)
  { cluster_id := cluster_id
    size := cluster_news.length
    keywords := extractKeywords (tfidf texts) texts top_keywords
    news_examples := (cluster_news.take top_titles).map
      (fun item => (item.title, item.link,
        item.source_name.getD "Неизвестный источник"))
    news_count := cluster_news.length }

/-- `build_narratives` (builder.py lines 31-82): group indices by non-noise
label, sort the groups by descending size (Python's stable `sorted` with
`reverse=True`), keep the first `top_n`, and build one narrative per kept
group. -/
def buildNarratives (tfidf : List String → Option (List String))
    (news_items : List NewsItem) (labels : List Int)
    (processed_texts : Option (List String))
    (top_n top_keywords top_titles : Nat) : List Narrative :=
  let sorted_clusters := (groupClusters labels).mergeSort
    (fun a b => b.2.length ≤ a.2.length)
  (sorted_clusters.take top_n).map
    (fun cl => buildSingleNarrative tfidf news_items processed_texts
      top_keywords top_titles cl.1 cl.2)

lemma mem_foldl_firstOccur {α : Type} [DecidableEq α] (l : List α) :
    ∀ (acc : List α) (x : α),
      x ∈ l.foldl (fun acc y => if y ∈ acc then acc else acc ++ [y]) acc →
      x ∈ acc ∨ x ∈ l := by
  induction l with
  | nil =>
      intro acc x h
      exact Or.inl h
  | cons a t ih =>
      intro acc x h
      simp only [List.foldl_cons] at h
      rcases ih _ x h with hacc | ht
      · by_cases hmem : a ∈ acc
        · rw [if_pos hmem] at hacc
          exact Or.inl hacc
        · rw [if_neg hmem] at hacc
          rcases List.mem_append.mp hacc with h1 | h2
          · exact Or.inl h1
          · right
            rw [List.mem_singleton] at h2
            rw [h2]
            exact List.mem_cons_self a t
      · right
        exact List.mem_cons_of_mem a ht

lemma mem_firstOccur {α : Type} [DecidableEq α] {l : List α} {x : α}
    (h : x ∈ firstOccur l) : x ∈ l := by
  rcases mem_foldl_firstOccur l [] x h with h0 | h1
  · cases h0
  · exact h1

lemma mem_mostCommon {ws : List String} {k : Nat} {x : String}
    (h : x ∈ mostCommon ws k) : x ∈ ws := by
  unfold mostCommon at h
  have h1 := List.take_subset _ _ h
  have h2 := (List.mergeSort_perm (firstOccur ws)
    (fun a b => ws.count b ≤ ws.count a)).mem_iff.mp h1
  exact mem_firstOccur h2

lemma mem_fallbackKeywords {texts : List String} {k : Nat} {kw : String}
    (h : kw ∈ fallbackKeywords texts k) : 3 ≤ kw.length := by
  unfold fallbackKeywords at h
  have h1 := mem_mostCommon h
  rw [List.mem_flatMap] at h1
  obtain ⟨t, _, hmem⟩ := h1
  rw [List.mem_filter] at hmem
  have h2 := hmem.2
  simp only [decide_eq_true_eq] at h2
  exact h2.1

lemma extractKeywords_lower_bound {tfidfRanked : Option (List String)}
    {texts : List String} {k : Nat} {kw : String}
    (h : kw ∈ extractKeywords tfidfRanked texts k) : 3 ≤ kw.length := by
  match tfidfRanked with
  | none => exact mem_fallbackKeywords h
  | some kws =>
      simp only [extractKeywords] at h
      by_cases hf : kws.filter (fun kw => 3 ≤ kw.length ∧ kw.length ≤ 50) = []
      · rw [if_pos hf] at h
        exact mem_fallbackKeywords h
      · rw [if_neg hf] at h
        have h2 := (List.mem_filter.mp h).2
        simp only [decide_eq_true_eq] at h2
        exact h2.1

lemma keywords_buildSingleNarrative (tfidf : List String → Option (List String))
    (news_items : List NewsItem) (processed_texts : Option (List String))
    (top_keywords top_titles : Nat) (cluster_id : Int) (indices : List Nat) :
    ∃ texts, (buildSingleNarrative tfidf news_items processed_texts
        top_keywords top_titles cluster_id indices).keywords
      = extractKeywords (tfidf texts) texts top_keywords := by
  unfold buildSingleNarrative
  exact ⟨_, rfl⟩

/-- Claim C5 (amended): every keyword of every narrative has length at least
3 — on both the TF-IDF path and the frequency fallback path — and on the
TF-IDF path (a ranked list whose 3..50 filter is non-empty) every keyword
additionally has length at most 50. The fallback path enforces only the
lower bound (see the counterexample). -/
theorem C5_keyword_length_bounds :
    (∀ (tfidf : List String → Option (List String)) (news_items : List NewsItem)
       (labels : List Int) (processed_texts : Option (List String))
       (top_n top_keywords top_titles : Nat) (nar : Narrative) (kw : String),
        nar ∈ buildNarratives tfidf news_items labels processed_texts
          top_n top_keywords top_titles →
        kw ∈ nar.keywords → 3 ≤ kw.length)
    ∧ (∀ (ranked texts : List String) (top_keywords : Nat) (kw : String),
        ranked.filter (fun kw => 3 ≤ kw.length ∧ kw.length ≤ 50) ≠ [] →
        kw ∈ extractKeywords (some ranked) texts top_keywords →
        3 ≤ kw.length ∧ kw.length ≤ 50) := by
  constructor
  · intro tfidf news_items labels processed_texts top_n top_keywords top_titles
      nar kw hnar hkw
    unfold buildNarratives at hnar
    rw [List.mem_map] at hnar
    obtain ⟨cl, _, hcl⟩ := hnar
    obtain ⟨texts, htexts⟩ := keywords_buildSingleNarrative tfidf news_items
      processed_texts top_keywords top_titles cl.1 cl.2
    rw [← hcl, htexts] at hkw
    exact extractKeywords_lower_bound hkw
  · intro ranked texts top_keywords kw hne h
    simp only [extractKeywords] at h
    rw [if_neg hne] at h
    have h2 := (List.mem_filter.mp h).2
    simp only [decide_eq_true_eq] at h2
    exact h2

/-- A 51-character token. -/
def longToken : String :=
  "aaaaaaaaaaaaaaaaaaaaaaaaaaaaaaaaaaaaaaaaaaaaaaaaaaa"

lemma mostCommon_single (w : String) (ws : List String)
    (h : firstOccur ws = [w]) : mostCommon ws 20 = [w] := by
  unfold mostCommon
  rw [h, List.mergeSort_singleton]
  rfl

/-- Claim C5, counterexample: a cluster whose one text is a single
51-character token. The TF-IDF ranking returns that token, the 3..50 filter
empties the list, the source raises "No keywords after filtering"
(builder.py lines 151-154) and control reaches the frequency fallback —
whose filter has no upper bound, so the 51-character token lands in the
narrative's keyword list and the claim's upper bound fails. -/
theorem C5_counterexample :
    ∃ nar ∈ buildNarratives (fun _ => some [longToken])
        [⟨longToken, "", none⟩] [0] none 5 20 10,
      ∃ kw ∈ nar.keywords, ¬ (3 ≤ kw.length ∧ kw.length ≤ 50) := by
  have h2 : extractKeywords (some [longToken]) [longToken] 20 = [longToken] := by
    simp only [extractKeywords]
    rw [if_pos (by decide)]
    exact mostCommon_single longToken _ rfl
  refine ⟨buildSingleNarrative (fun _ => some [longToken])
    [⟨longToken, "", none⟩] none 20 10 0 [0], ?_, longToken, ?_, ?_⟩
  · unfold buildNarratives
    rw [show groupClusters [0] = [((0 : Int), [(0 : Nat)])] from rfl,
      List.mergeSort_singleton]
    exact List.mem_singleton_self _
  · rw [show (buildSingleNarrative (fun _ => some [longToken])
      [⟨longToken, "", none⟩] none 20 10 0 [0]).keywords
      = extractKeywords (some [longToken]) [longToken] 20 from rfl, h2]
    exact List.mem_singleton_self _
  · decide

lemma size_buildSingleNarrative (tfidf : List String → Option (List String))
    (news_items : List NewsItem) (processed_texts : Option (List String))
    (top_keywords top_titles : Nat) (cluster_id : Int) (indices : List Nat) :
    (buildSingleNarrative tfidf news_items processed_texts
        top_keywords top_titles cluster_id indices).size = indices.length := by
  unfold buildSingleNarrative
  simp

lemma newsCount_buildSingleNarrative (tfidf : List String → Option (List String))
    (news_items : List NewsItem) (processed_texts : Option (List String))
    (top_keywords top_titles : Nat) (cluster_id : Int) (indices : List Nat) :
    (buildSingleNarrative tfidf news_items processed_texts
        top_keywords top_titles cluster_id indices).news_count
      = indices.length := by
  unfold buildSingleNarrative
  simp

lemma mem_groupClusters {labels : List Int} {cl : Int × List Nat}
    (h : cl ∈ groupClusters labels) :
    cl.1 ≠ -1 ∧ cl.2 = clusterIndices labels cl.1 := by
  unfold groupClusters at h
  rw [List.mem_map] at h
  obtain ⟨l, hl, hcl⟩ := h
  rw [List.mem_filter] at hl
  have : l ≠ -1 := by simpa using hl.2
  rw [← hcl]
  exact ⟨this, rfl⟩

/-- Claim C6: `build_narratives` returns at most `top_n` narratives, the
narratives are groups of item indices sharing one non-noise label (size =
group size = `news_count`), and their sizes are non-increasing in output
order (stable sort by descending group size, then truncation). -/
theorem C6_narratives_truncated_and_sorted
    (tfidf : List String → Option (List String)) (news_items : List NewsItem)
    (labels : List Int) (processed_texts : Option (List String))
    (top_n top_keywords top_titles : Nat) :
    (buildNarratives tfidf news_items labels processed_texts
        top_n top_keywords top_titles).length ≤ top_n
    ∧ (buildNarratives tfidf news_items labels processed_texts
        top_n top_keywords top_titles).Pairwise
        (fun a b => b.size ≤ a.size)
    ∧ ∀ nar ∈ buildNarratives tfidf news_items labels processed_texts
        top_n top_keywords top_titles,
        nar.cluster_id ≠ -1
        ∧ nar.size = (clusterIndices labels nar.cluster_id).length
        ∧ nar.news_count = nar.size := by
  refine ⟨?_, ?_, ?_⟩
  · unfold buildNarratives
    rw [List.length_map, List.length_take]
    exact min_le_left _ _
  · unfold buildNarratives
    rw [List.pairwise_map]
    apply List.Pairwise.sublist (List.take_sublist _ _)
    have hp := @List.sorted_mergeSort (Int × List Nat)
      (fun a b => decide (b.2.length ≤ a.2.length))
      (fun a b c hab hbc => by
        simp only [decide_eq_true_eq] at hab hbc ⊢
        exact le_trans hbc hab)
      (fun a b => by
        simp only [Bool.or_eq_true, decide_eq_true_eq]
        exact Nat.le_total b.2.length a.2.length)
      (groupClusters labels)
    apply hp.imp
    intro a b h
    simp only [decide_eq_true_eq] at h
    rw [size_buildSingleNarrative, size_buildSingleNarrative]
    exact h
  · intro nar hnar
    unfold buildNarratives at hnar
    rw [List.mem_map] at hnar
    obtain ⟨cl, hclmem, hcl⟩ := hnar
    have hg : cl ∈ groupClusters labels := by
      have h1 := List.take_subset _ _ hclmem
      exact (List.mergeSort_perm (groupClusters labels)
        (fun a b => b.2.length ≤ a.2.length)).mem_iff.mp h1
    obtain ⟨hne, hidx⟩ := mem_groupClusters hg
    refine ⟨?_, ?_, ?_⟩
    · rw [← hcl]
      simpa [buildSingleNarrative] using hne
    · rw [← hcl]
      rw [size_buildSingleNarrative]
      have : (buildSingleNarrative tfidf news_items processed_texts
          top_keywords top_titles cl.1 cl.2).cluster_id = cl.1 := by
        simp [buildSingleNarrative]
      rw [this, hidx]
    · rw [← hcl, size_buildSingleNarrative, newsCount_buildSingleNarrative]

/-! ## Clustering pipeline (`cluster.py`, `fit_predict` lines 55-153) -/

/-- `np.linalg.norm(row)`: the L2 norm of one row (cluster.py line 74). -/
noncomputable def l2norm (v : List ℝ) : ℝ :=
  Real.sqrt ((v.map (fun x => x ^ 2)).sum)

/-- One row of `X / norms` after `norms[norms == 0] = 1`
(cluster.py lines 74-76): a row with zero norm is divided by 1, i.e. left
unnormalized. -/
noncomputable def normalizeRow (v : List ℝ) : List ℝ :=
  let n := l2norm v
  let n1 := if n = 0 then 1 else n
  v.map (fun x => x / n1)

/-- The metric preprocessing of `fit_predict` (cluster.py lines 70-80): under
`cosine`, every row is L2-normalized and the working metric becomes
`euclidean`; any other metric leaves the data untouched. -/
noncomputable def preprocessMetric (metric : String) (x : List (List ℝ)) :
    List (List ℝ) × String :=
  if metric = "cosine" then (x.map normalizeRow, "euclidean") else (x, metric)

/-- The label computation of `fit_predict` (cluster.py lines 70-99) with the
hdbscan library call supplied as `backend`, a function of the preprocessed
matrix and the working metric. -/
noncomputable def fitPredictLabels (backend : List (List ℝ) → String → List Int)
    (metric : String) (x : List (List ℝ)) : List Int :=
  let p := preprocessMetric metric x
  backend p.1 p.2

/-- Per-row scaling of a matrix by one factor per row. -/
def scaleRows (c : List ℝ) (x : List (List ℝ)) : List (List ℝ) :=
  List.zipWith (fun ci row => row.map (fun v => ci * v)) c x

lemma l2norm_nonneg (v : List ℝ) : 0 ≤ l2norm v :=
  Real.sqrt_nonneg _

lemma l2norm_scale (c : ℝ) (hc : 0 < c) (v : List ℝ) :
    l2norm (v.map (fun x => c * x)) = c * l2norm v := by
  unfold l2norm
  rw [List.map_map]
  have h1 : ((fun x => x ^ 2) ∘ fun x => c * x) = fun x => c ^ 2 * x ^ 2 := by
    funext x
    simp [mul_pow]
  rw [h1]
  rw [List.sum_map_mul_left]
  rw [Real.sqrt_mul (sq_nonneg c)]
  rw [Real.sqrt_sq (le_of_lt hc)]

lemma eq_zero_of_sum_sq_eq_zero {l : List ℝ}
    (h : (l.map (fun x => x ^ 2)).sum = 0) : ∀ x ∈ l, x = 0 := by
  induction l with
  | nil => simp
  | cons a t ih =>
      simp only [List.map_cons, List.sum_cons] at h
      have ha : 0 ≤ a ^ 2 := sq_nonneg a
      have ht : 0 ≤ (t.map (fun x => x ^ 2)).sum := by
        apply List.sum_nonneg
        intro x hx
        rw [List.mem_map] at hx
        obtain ⟨y, _, hy⟩ := hx
        rw [← hy]
        exact sq_nonneg y
      have ha0 : a ^ 2 = 0 := by linarith
      have ht0 : (t.map (fun x => x ^ 2)).sum = 0 := by linarith
      intro x hx
      rcases List.mem_cons.mp hx with h1 | h2
      · rw [h1]
        exact pow_eq_zero_iff (by norm_num) |>.mp ha0
      · exact ih ht0 x h2

lemma l2norm_eq_zero_all_zero {v : List ℝ} (h : l2norm v = 0) :
    ∀ x ∈ v, x = 0 := by
  unfold l2norm at h
  have hnn : 0 ≤ (v.map (fun x => x ^ 2)).sum := by
    apply List.sum_nonneg
    intro x hx
    rw [List.mem_map] at hx
    obtain ⟨y, _, hy⟩ := hx
    rw [← hy]
    exact sq_nonneg y
  have h0 : (v.map (fun x => x ^ 2)).sum = 0 :=
    (Real.sqrt_eq_zero hnn).mp h
  exact eq_zero_of_sum_sq_eq_zero h0

lemma normalizeRow_scale (c : ℝ) (hc : 0 < c) (v : List ℝ) :
    normalizeRow (v.map (fun x => c * x)) = normalizeRow v := by
  unfold normalizeRow
  by_cases h0 : l2norm v = 0
  · have hall := l2norm_eq_zero_all_zero h0
    have hmap : v.map (fun x => c * x) = v := by
      have h1 : v.map (fun x => c * x) = v.map id := by
        apply List.map_congr_left
        intro x hx
        rw [hall x hx]
        simp
      rw [h1, List.map_id]
    rw [hmap]
  · have hpos : 0 < l2norm v := lt_of_le_of_ne (l2norm_nonneg v) (Ne.symm h0)
    have hs : l2norm (v.map (fun x => c * x)) = c * l2norm v :=
      l2norm_scale c hc v
    have hne : c * l2norm v ≠ 0 :=
      mul_ne_zero (ne_of_gt hc) h0
    rw [hs]
    simp only [if_neg hne, if_neg h0, List.map_map]
    apply List.map_congr_left
    intro x _
    simp only [Function.comp_apply]
    field_simp
    ring

lemma map_normalize_scaleRows (c : List ℝ) (x : List (List ℝ))
    (hlen : c.length = x.length) (hc : ∀ ci ∈ c, 0 < ci) :
    (scaleRows c x).map normalizeRow = x.map normalizeRow := by
  induction c generalizing x with
  | nil =>
      cases x with
      | nil => rfl
      | cons row xt => simp at hlen
  | cons ci ct ih =>
      cases x with
      | nil => simp at hlen
      | cons row xt =>
          unfold scaleRows
          simp only [List.zipWith_cons_cons, List.map_cons]
          congr 1
          · exact normalizeRow_scale ci (hc ci (List.mem_cons_self ci ct)) row
          · exact ih xt (by simpa using hlen)
              (fun c2 hc2 => hc c2 (List.mem_cons_of_mem ci hc2))
/-- Claim C4: clustering with `distance_metric = cosine` is invariant under
strictly positive per-row scaling — the preprocessed (L2-normalized) matrix
is identical, rows of zero norm included (a zero-norm row is the zero row,
unchanged by scaling), so any deterministic backend produces the identical
label assignment — and under `cosine` the working metric passed to the
backend is `euclidean`. -/
theorem C4_cosine_scale_invariance
    (backend : List (List ℝ) → String → List Int)
    (x : List (List ℝ)) (c : List ℝ)
    (hlen : c.length = x.length) (hc : ∀ ci ∈ c, 0 < ci) :
    fitPredictLabels backend "cosine" (scaleRows c x)
        = fitPredictLabels backend "cosine" x
    ∧ (preprocessMetric "cosine" x).2 = "euclidean" := by
  constructor
  · unfold fitPredictLabels preprocessMetric
    rw [if_pos rfl, if_pos rfl]
    simp only
    rw [map_normalize_scaleRows c x hlen hc]
  · unfold preprocessMetric
    rw [if_pos rfl]

/-- Claim C4, witness input. -/
theorem C4_cosine_scale_invariance_witness :
    fitPredictLabels (fun _ _ => []) "cosine" (scaleRows [2] [[3, 4]])
        = fitPredictLabels (fun _ _ => []) "cosine" [[3, 4]] :=
  (C4_cosine_scale_invariance (fun _ _ => []) [[3, 4]] [2] rfl
    (by intro ci hci; rw [List.mem_singleton] at hci; rw [hci]; norm_num)).1

/-! ## Input-shape failures and the small-input edge case
(`cluster.py`, `fit_predict` lines 55-105) -/

/-- Input-shape failures of `fit_predict`: a ragged nested list makes
`np.array(vectors, dtype=np.float32)` raise (cluster.py line 68), and an
empty input makes the row-normalization / library call raise (lines 74, 99).
`fit_predict` has no handler for either — fatal, never caught or retried. -/
inductive InputShapeError where
  | emptyInput : InputShapeError
  | ragged : InputShapeError
deriving DecidableEq

/-- The tuple returned by `fit_predict` (cluster.py line 153). -/
structure FitResult where
  labels : List Int
  n_clusters : Nat
  n_noise : Nat
  unique_labels : List Int
deriving DecidableEq

/-- Modelled from the spec: the hdbscan library call (cluster.py lines
86-99) is code outside this repository; spec section 4.1 fixes its behavior
on small inputs ("Edge cases: N < min_cluster_size: all points noise,
n_clusters = 0"), and on other inputs it is an arbitrary deterministic
function `backend` of the data. -/
def hdbscanLabels (backend : List (List ℚ) → List Int)
    (min_cluster_size : Nat) (x : List (List ℚ)) : List Int :=
  if x.length < min_cluster_size then List.replicate x.length (-1)
  else backend x

/-- Whether every row has the width of the first row (`np.array` on the
nested list succeeds exactly in this case). -/
def wellShaped (vectors : List (List ℚ)) : Bool :=
  vectors.all (fun v => v.length = (vectors.headD []).length)

/-- `fit_predict` (cluster.py lines 55-153) with its input-shape failures
made explicit: ragged input fails at `np.array` (line 68), empty input fails
inside preprocessing / the library call (lines 74, 99); neither failure is
caught. On well-shaped input the labels come from the (spec-modelled)
library call and the returned statistics are computed as at lines 103-105.
The cosine preprocessing is absorbed into `backend` (it never changes the
number of rows). -/
def fitPredict (backend : List (List ℚ) → List Int) (min_cluster_size : Nat)
    (vectors : List (List ℚ)) : Except InputShapeError FitResult :=
  if vectors.length = 0 then .error .emptyInput
  else if ¬ wellShaped vectors then .error .ragged
  else
    let labels := hdbscanLabels backend min_cluster_size vectors
    .ok ⟨labels, nClusters labels, nNoise labels, uniqueLabels labels⟩

/-- Claim C7: on malformed input — an empty vector list or a ragged one —
`fit_predict` fails fast with an input-shape error; no result is produced
and nothing catches or retries it. -/
theorem C7_malformed_input_fails (backend : List (List ℚ) → List Int)
    (min_cluster_size : Nat) (vectors : List (List ℚ))
    (h : vectors = [] ∨ ∃ v ∈ vectors, v.length ≠ (vectors.headD []).length) :
    ∃ e : InputShapeError,
      fitPredict backend min_cluster_size vectors = .error e := by
  rcases h with h | h
  · refine ⟨.emptyInput, ?_⟩
    unfold fitPredict
    rw [h]
    rfl
  · by_cases hempty : vectors.length = 0
    · refine ⟨.emptyInput, ?_⟩
      unfold fitPredict
      rw [if_pos hempty]
    · refine ⟨.ragged, ?_⟩
      obtain ⟨v, hv, hne⟩ := h
      have hns : ¬ wellShaped vectors := by
        unfold wellShaped
        intro hall
        rw [List.all_eq_true] at hall
        have := hall v hv
        simp only [decide_eq_true_eq] at this
        exact hne this
      unfold fitPredict
      rw [if_neg hempty, if_pos hns]

/-- Claim C7, witness: a ragged two-row input is rejected. -/
theorem C7_malformed_input_fails_witness :
    ∃ e : InputShapeError,
      fitPredict (fun _ => []) 5 [[(1 : ℚ)], [1, 2]] = .error e :=
  C7_malformed_input_fails (fun _ => []) 5 [[(1 : ℚ)], [1, 2]]
    (Or.inr ⟨[1, 2], by decide⟩)

lemma dedup_replicate_neg_one (n : Nat) (h : 1 ≤ n) :
    (List.replicate n (-1 : Int)).dedup = [-1] := by
  induction n with
  | zero => omega
  | succ m ih =>
      by_cases hm : 1 ≤ m
      · rw [List.replicate_succ,
          List.dedup_cons_of_mem (List.mem_replicate.mpr ⟨by omega, rfl⟩)]
        exact ih hm
      · have : m = 0 := by omega
        subst this
        rfl

/-- Claim C8: for well-shaped input with `1 ≤ N < min_cluster_size`,
`fit_predict` returns normally (no error) with `n_clusters = 0` and every
point labeled `-1` (all noise), `n_noise = N`. -/
theorem C8_small_input_all_noise (backend : List (List ℚ) → List Int)
    (min_cluster_size : Nat) (vectors : List (List ℚ))
    (h1 : 1 ≤ vectors.length) (h2 : vectors.length < min_cluster_size)
    (hw : wellShaped vectors = true) :
    fitPredict backend min_cluster_size vectors
      = .ok ⟨List.replicate vectors.length (-1), 0, vectors.length, [-1]⟩ := by
  unfold fitPredict
  rw [if_neg (by omega), if_neg (by simp [hw])]
  have hlabels : hdbscanLabels backend min_cluster_size vectors
      = List.replicate vectors.length (-1) := by
    unfold hdbscanLabels
    rw [if_pos h2]
  have hded : (List.replicate vectors.length (-1 : Int)).dedup = [-1] :=
    dedup_replicate_neg_one vectors.length h1
  have hnc : nClusters (List.replicate vectors.length (-1)) = 0 := by
    unfold nClusters uniqueLabels
    rw [hded]
    simp
  have hnn : nNoise (List.replicate vectors.length (-1)) = vectors.length := by
    unfold nNoise
    rw [List.countP_eq_length_filter]
    rw [List.filter_eq_self.mpr (by
      intro a ha
      rw [List.eq_of_mem_replicate ha]
      simp)]
    exact List.length_replicate _ _
  have hul : uniqueLabels (List.replicate vectors.length (-1)) = [-1] := hded
  simp only [hlabels, hnc, hnn, hul]

/-- Claim C8, witness: one 2-wide row with `min_cluster_size = 5`. -/
theorem C8_small_input_all_noise_witness :
    fitPredict (fun _ => []) 5 [[(1 : ℚ), 2]]
      = .ok ⟨[-1], 0, 1, [-1]⟩ :=
  C8_small_input_all_noise (fun _ => []) 5 [[(1 : ℚ), 2]]
    (by decide) (by decide) (by decide)

/-! ## Parameter grid search (`cluster.py`, `optimize_parameters`
lines 159-218) -/

/-- `itertools.product(*parameter_ranges.values())` in its iteration order:
the first value list varies slowest, the last fastest
(cluster.py line 180). -/
def cartProduct {α : Type} : List (List α) → List (List α)
  | [] => [[]]
  | vs :: rest => vs.flatMap (fun v => (cartProduct rest).map (fun combo => v :: combo))

/-- The outcome of testing one parameter combination (cluster.py lines
186-208): construction + clustering + evaluation may raise (`raised`, caught
at line 206 and skipped), may leave no metrics (`noMetrics`, the falsy
`metrics` of line 199), or yields a metrics dict whose
`overall_quality_score` entry is `overall` (`none` when the key is absent,
as in an ERROR dict; `metrics.get` then falls back to 0 at line 200). -/
inductive RunOutcome where
  | raised : RunOutcome
  | noMetrics : RunOutcome
  | metrics : Option ℚ → RunOutcome
deriving DecidableEq

/-- The score one outcome contributes, `none` when the combination is
skipped (raised or no metrics). -/
def outcomeScore : RunOutcome → Option ℚ
  | .raised => none
  | .noMetrics => none
  | .metrics o => some (o.getD 0)

/-- The running state and final result `{best_params, best_score,
best_metrics}` (cluster.py lines 173-175 and 214-218); `none` stands for the
initial empty dicts. -/
structure OptResult (α : Type) where
  best_params : Option (List α)
  best_score : ℚ
  best_metrics : Option (Option ℚ)

/-- One iteration of `optimize_parameters`' loop (cluster.py lines 183-208):
raising combinations leave the state unchanged, a present score replaces the
best only when it strictly exceeds it. -/
def optStep {α : Type} (run : List α → RunOutcome) (acc : OptResult α)
    (combo : List α) : OptResult α :=
  match run combo with
  | .raised => acc
  | .noMetrics => acc
  | .metrics o =>
      if o.getD 0 > acc.best_score then ⟨some combo, o.getD 0, some o⟩ else acc

/-- `optimize_parameters` (cluster.py lines 159-218): fold over the full
Cartesian product with `best_score` initialized to 0. -/
def optimizeParameters {α : Type} (run : List α → RunOutcome)
    (ranges : List (List α)) : OptResult α :=
  (cartProduct ranges).foldl (optStep run) ⟨none, 0, none⟩

lemma optStep_raised {α : Type} {run : List α → RunOutcome} {c : List α}
    (acc : OptResult α) (h : run c = .raised) : optStep run acc c = acc := by
  unfold optStep
  rw [h]

lemma optStep_noMetrics {α : Type} {run : List α → RunOutcome} {c : List α}
    (acc : OptResult α) (h : run c = .noMetrics) : optStep run acc c = acc := by
  unfold optStep
  rw [h]

lemma optFold_spec {α : Type} (run : List α → RunOutcome)
    (combos : List (List α)) (acc : OptResult α) :
    (combos.foldl (optStep run) acc = acc
      ∧ ∀ c ∈ combos, ∀ s : ℚ, outcomeScore (run c) = some s
          → s ≤ acc.best_score)
    ∨ (∃ xs c ys, combos = xs ++ c :: ys
        ∧ (combos.foldl (optStep run) acc).best_params = some c
        ∧ outcomeScore (run c)
            = some (combos.foldl (optStep run) acc).best_score
        ∧ acc.best_score < (combos.foldl (optStep run) acc).best_score
        ∧ (∀ c2 ∈ xs, ∀ s : ℚ, outcomeScore (run c2) = some s
            → s < (combos.foldl (optStep run) acc).best_score)
        ∧ (∀ c2 ∈ ys, ∀ s : ℚ, outcomeScore (run c2) = some s
            → s ≤ (combos.foldl (optStep run) acc).best_score)) := by
  induction combos generalizing acc with
  | nil =>
      left
      exact ⟨rfl, by simp⟩
  | cons c t ih =>
      rw [List.foldl_cons]
      match hrun : run c with
      | .raised =>
          rw [optStep_raised acc hrun]
          rcases ih acc with ⟨heq, hall⟩ | ⟨xs, b, ys, hsplit, hp, hsc, hlt, hxs, hys⟩
          · left
            refine ⟨heq, ?_⟩
            intro c2 hc2 s hs
            rcases List.mem_cons.mp hc2 with h1 | h1
            · rw [h1, hrun] at hs
              cases hs
            · exact hall c2 h1 s hs
          · right
            refine ⟨c :: xs, b, ys, by simp [hsplit], hp, hsc, hlt, ?_, hys⟩
            intro c2 hc2 s hs
            rcases List.mem_cons.mp hc2 with h1 | h1
            · rw [h1, hrun] at hs
              cases hs
            · exact hxs c2 h1 s hs
      | .noMetrics =>
          rw [optStep_noMetrics acc hrun]
          rcases ih acc with ⟨heq, hall⟩ | ⟨xs, b, ys, hsplit, hp, hsc, hlt, hxs, hys⟩
          · left
            refine ⟨heq, ?_⟩
            intro c2 hc2 s hs
            rcases List.mem_cons.mp hc2 with h1 | h1
            · rw [h1, hrun] at hs
              cases hs
            · exact hall c2 h1 s hs
          · right
            refine ⟨c :: xs, b, ys, by simp [hsplit], hp, hsc, hlt, ?_, hys⟩
            intro c2 hc2 s hs
            rcases List.mem_cons.mp hc2 with h1 | h1
            · rw [h1, hrun] at hs
              cases hs
            · exact hxs c2 h1 s hs
      | .metrics o =>
          have hstep : optStep run acc c
              = if o.getD 0 > acc.best_score
                  then ⟨some c, o.getD 0, some o⟩ else acc := by
            unfold optStep
            rw [hrun]
          by_cases hgt : o.getD 0 > acc.best_score
          · rw [hstep, if_pos hgt]
            rcases ih ⟨some c, o.getD 0, some o⟩ with ⟨heq, hall⟩
              | ⟨xs, b, ys, hsplit, hp, hsc, hlt, hxs, hys⟩
            · right
              refine ⟨[], c, t, rfl, ?_, ?_, ?_, by simp, ?_⟩
              · rw [heq]
              · rw [heq, hrun]
                rfl
              · rw [heq]
                exact hgt
              · intro c2 hc2 s hs
                have := hall c2 hc2 s hs
                rw [heq]
                exact this
            · right
              refine ⟨c :: xs, b, ys, by simp [hsplit], hp, hsc, ?_, ?_, hys⟩
              · calc acc.best_score < o.getD 0 := hgt
                  _ < _ := hlt
              · intro c2 hc2 s hs
                rcases List.mem_cons.mp hc2 with h1 | h1
                · rw [h1, hrun] at hs
                  have hso : s = o.getD 0 := by
                    injection hs with h2
                    exact h2.symm
                  rw [hso]
                  exact hlt
                · exact hxs c2 h1 s hs
          · rw [hstep, if_neg hgt]
            rcases ih acc with ⟨heq, hall⟩
              | ⟨xs, b, ys, hsplit, hp, hsc, hlt, hxs, hys⟩
            · left
              refine ⟨heq, ?_⟩
              intro c2 hc2 s hs
              rcases List.mem_cons.mp hc2 with h1 | h1
              · rw [h1, hrun] at hs
                have hso : s = o.getD 0 := by
                  injection hs with h2
                  exact h2.symm
                rw [hso]
                exact le_of_not_lt hgt
              · exact hall c2 h1 s hs
            · right
              refine ⟨c :: xs, b, ys, by simp [hsplit], hp, hsc, hlt, ?_, hys⟩
              intro c2 hc2 s hs
              rcases List.mem_cons.mp hc2 with h1 | h1
              · rw [h1, hrun] at hs
                have hso : s = o.getD 0 := by
                  injection hs with h2
                  exact h2.symm
                rw [hso]
                calc o.getD 0 ≤ acc.best_score := le_of_not_lt hgt
                  _ < _ := hlt
              · exact hxs c2 h1 s hs

lemma sum_map_const_nat {α : Type} (l : List α) (k : Nat) :
    (l.map (fun _ => k)).sum = l.length * k := by
  induction l with
  | nil => simp
  | cons a t ih =>
      simp [ih]
      ring

lemma cartProduct_length {α : Type} (ranges : List (List α)) :
    (cartProduct ranges).length = (ranges.map List.length).prod := by
  induction ranges with
  | nil => rfl
  | cons vs rest ih =>
      unfold cartProduct
      rw [List.length_flatMap]
      have hmap : (vs.map (List.length ∘ fun v => (cartProduct rest).map
            (fun combo => v :: combo)))
          = vs.map (fun _ => (cartProduct rest).length) := by
        apply List.map_congr_left
        intro v _
        simp
      rw [hmap, sum_map_const_nat, ih]
      simp [Nat.mul_comm]

/-- Claim C9: `optimize_parameters` (i) enumerates the full Cartesian
product of the supplied parameter value lists, in stable order, (ii) skips a
combination whose clustering or evaluation raises without aborting the
search, and (iii) either no combination scores above the initial 0 (and the
empty result stands), or the returned combination is the first-found one
attaining the best score: every earlier combination scores strictly below
it and every later one at most it (equal-scoring later combinations never
replace it). -/
theorem C9_grid_search_exhaustive_skip_first {α : Type}
    (run : List α → RunOutcome) (ranges : List (List α)) :
    (cartProduct ranges).length = (ranges.map List.length).prod
    ∧ (∀ (xs ys : List (List α)) (c : List α) (acc : OptResult α),
        run c = .raised →
        (xs ++ c :: ys).foldl (optStep run) acc
          = (xs ++ ys).foldl (optStep run) acc)
    ∧ ((optimizeParameters run ranges = ⟨none, 0, none⟩
          ∧ ∀ c ∈ cartProduct ranges, ∀ s : ℚ,
              outcomeScore (run c) = some s → s ≤ 0)
        ∨ (∃ xs c ys, cartProduct ranges = xs ++ c :: ys
            ∧ (optimizeParameters run ranges).best_params = some c
            ∧ outcomeScore (run c)
                = some (optimizeParameters run ranges).best_score
            ∧ 0 < (optimizeParameters run ranges).best_score
            ∧ (∀ c2 ∈ xs, ∀ s : ℚ, outcomeScore (run c2) = some s
                → s < (optimizeParameters run ranges).best_score)
            ∧ (∀ c2 ∈ ys, ∀ s : ℚ, outcomeScore (run c2) = some s
                → s ≤ (optimizeParameters run ranges).best_score))) := by
  refine ⟨cartProduct_length ranges, ?_, ?_⟩
  · intro xs ys c acc hraised
    rw [List.foldl_append, List.foldl_append, List.foldl_cons,
      optStep_raised _ hraised]
  · have h := optFold_spec run (cartProduct ranges) ⟨none, 0, none⟩
    rcases h with ⟨heq, hall⟩ | ⟨xs, c, ys, hsplit, hp, hsc, hlt, hxs, hys⟩
    · left
      exact ⟨heq, hall⟩
    · right
      exact ⟨xs, c, ys, hsplit, hp, hsc, hlt, hxs, hys⟩

/-- Claim C9, witness: over `ranges = [[1, 2]]` with the combination `[1]`
scoring 1/2 and `[2]` raising, the theorem's conclusions instantiate. -/
theorem C9_grid_search_witness :
    ((cartProduct [[1, 2]]).length = ([[1, 2]].map List.length).prod)
    ∧ ([[(2 : ℕ)]].foldl
          (optStep (fun combo => if combo = [1]
            then RunOutcome.metrics (some (1/2)) else RunOutcome.raised))
          ⟨none, 0, none⟩
        = ([] : List (List ℕ)).foldl
            (optStep (fun combo => if combo = [1]
              then RunOutcome.metrics (some (1/2)) else RunOutcome.raised))
            ⟨none, 0, none⟩) := by
  have h := C9_grid_search_exhaustive_skip_first
    (fun combo : List ℕ => if combo = [1]
      then RunOutcome.metrics (some (1/2)) else RunOutcome.raised) [[1, 2]]
  exact ⟨h.1, h.2.1 [] [] [2] ⟨none, 0, none⟩ (by decide)⟩

/-- Claim C10: a combination is recorded as best only on strict improvement
over the 0-initialized best score, so a combination scoring exactly 0 is
never selected — whenever the selected parameters exist their score is
strictly positive and equals the reported best — and when every combination
raises, has no metrics, or scores at most 0, the result is the initial
`{best_params: {}, best_score: 0, best_metrics: {}}`. -/
theorem C10_strict_improvement_zero_never_selected {α : Type}
    (run : List α → RunOutcome) (ranges : List (List α)) :
    ((∀ c ∈ cartProduct ranges, ∀ s : ℚ,
        outcomeScore (run c) = some s → s ≤ 0) →
      optimizeParameters run ranges = ⟨none, 0, none⟩)
    ∧ (∀ c : List α, (optimizeParameters run ranges).best_params = some c →
        0 < (optimizeParameters run ranges).best_score
        ∧ outcomeScore (run c)
            = some (optimizeParameters run ranges).best_score) := by
  have h := optFold_spec run (cartProduct ranges) ⟨none, 0, none⟩
  constructor
  · intro hall
    rcases h with ⟨heq, _⟩ | ⟨xs, c, ys, hsplit, hp, hsc, hlt, _, _⟩
    · exact heq
    · exfalso
      have hmem : c ∈ cartProduct ranges := by
        rw [hsplit]
        exact List.mem_append_right xs (List.mem_cons_self c ys)
      have := hall c hmem _ hsc
      exact absurd hlt (by simp only [optimizeParameters]; linarith)
  · intro c0 hc0
    rcases h with ⟨heq, _⟩ | ⟨xs, c, ys, hsplit, hp, hsc, hlt, _, _⟩
    · rw [show optimizeParameters run ranges
          = (cartProduct ranges).foldl (optStep run) ⟨none, 0, none⟩ from rfl,
        heq] at hc0
      cases hc0
    · have hcc : c = c0 := by
        have h1 : (optimizeParameters run ranges).best_params = some c := hp
        rw [hc0] at h1
        injection h1 with h2
        exact h2.symm
      rw [← hcc]
      exact ⟨hlt, hsc⟩

/-- Claim C10, witness: with every combination scoring exactly 0, the
returned result is the initial empty one. -/
theorem C10_zero_scores_witness :
    optimizeParameters
        (fun _ : List ℕ => RunOutcome.metrics (some 0)) [[1, 2]]
      = ⟨none, 0, none⟩ :=
  (C10_strict_improvement_zero_never_selected
      (fun _ : List ℕ => RunOutcome.metrics (some 0)) [[1, 2]]).1
    (by
      intro c hc s hs
      simp only [outcomeScore, Option.getD_some] at hs
      injection hs with h
      exact le_of_eq h.symm)

/-- Claim C5 (amended), witness: the lower bound at the fallback-path
narrative of the counterexample input, and both bounds on a TF-IDF-path
extraction. -/
theorem C5_keyword_length_bounds_witness :
    3 ≤ longToken.length
    ∧ (3 ≤ "abcd".length ∧ "abcd".length ≤ 50) := by
  constructor
  · apply C5_keyword_length_bounds.1 (fun _ => none) [⟨longToken, "", none⟩]
      [0] none 5 20 10
      (buildSingleNarrative (fun _ => none) [⟨longToken, "", none⟩] none
        20 10 0 [0]) longToken
    · unfold buildNarratives
      rw [show groupClusters [0] = [((0 : Int), [(0 : Nat)])] from rfl,
        List.mergeSort_singleton]
      exact List.mem_singleton_self _
    · have h2 : extractKeywords none [longToken] 20 = [longToken] :=
        mostCommon_single longToken _ rfl
      rw [show (buildSingleNarrative (fun _ => none) [⟨longToken, "", none⟩]
          none 20 10 0 [0]).keywords = extractKeywords none [longToken] 20
          from rfl, h2]
      exact List.mem_singleton_self _
  · exact C5_keyword_length_bounds.2 ["abcd"] [] 20 "abcd" (by decide)
      (by decide)

/-- Claim C6, witness: a singleton cluster input. -/
theorem C6_narratives_witness :
    (buildNarratives (fun _ => none) [⟨"t", "", none⟩] [0] none 5 20 10).length
        ≤ 5
    ∧ (buildSingleNarrative (fun _ => none) [⟨"t", "", none⟩] none
        20 10 0 [0]).cluster_id ≠ -1 := by
  have h := C6_narratives_truncated_and_sorted (fun _ => none)
    [⟨"t", "", none⟩] [0] none 5 20 10
  refine ⟨h.1, ?_⟩
  have h3 := h.2.2 (buildSingleNarrative (fun _ => none) [⟨"t", "", none⟩]
    none 20 10 0 [0])
    (by
      unfold buildNarratives
      rw [show groupClusters [0] = [((0 : Int), [(0 : Nat)])] from rfl,
        List.mergeSort_singleton]
      exact List.mem_singleton_self _)
  exact h3.1

end NewsAnalyzer
